import Mathlib

/-!
Verification of the jemalloc-tuning benchmark harness (`src/agent.rs`,
`src/dogstatsd.rs`).  The Rust source is shallowly embedded: pure functions
become Lean functions, the daemon-facing control flow becomes an explicit
trace over an oracle describing which daemon calls succeed, and machine
integers become `Nat` (no arithmetic here approaches overflow for the
claimed domains).
-/

namespace Jemopt

/-! ### Configuration codec: `MallocConf` (src/agent.rs lines 19-65) -/

/-- `struct MallocConf` from src/agent.rs.  `dss` is one of the three
string constants produced by the `From` impl. -/
structure MallocConf where
  narenas : Nat
  tchache_max : Nat
  oversize_threshold : Nat
  dss : String
  background_thread : Bool
  muzzy_decay_ms : Nat
  lg_extent_max_active_fit : Nat
deriving Repr, DecidableEq

/-- The `match value[3] { 0..3 => "disabled", 3..7 => "primary", _ => "secondary" }`
arm of `impl From<&[usize]> for MallocConf`. -/
def dssOf (n : Nat) : String :=
  if n < 3 then "disabled" else if n < 7 then "primary" else "secondary"

/-- `impl From<&[usize]> for MallocConf` (src/agent.rs lines 30-46).
Rust indexes `value[0]..value[6]` (panicking on shorter slices); the
claims only use vectors of length 7, where `getD` coincides with the
Rust indexing. -/
def MallocConf.fromVec (value : List Nat) : MallocConf :=
  { tchache_max := value.getD 0 0 * 6500
    oversize_threshold := value.getD 1 0 * 6500
    narenas := value.getD 2 0
    dss := dssOf (value.getD 3 0)
    background_thread := value.getD 4 0 > 5
    muzzy_decay_ms := value.getD 5 0 * 100
    lg_extent_max_active_fit := value.getD 6 0 }

/-- `impl ToString for MallocConf` (src/agent.rs lines 48-65): the
`format!` template, with literal chunks split exactly at the `{}`
placeholders. -/
def MallocConf.toStr (c : MallocConf) : String :=
  "background_thread:" ++ (if c.background_thread then "true" else "false")
    ++ ",narenas:" ++ Nat.repr c.narenas
    ++ ",tcache:false,dirty_decay_ms:0,muzzy_decay_ms:" ++ Nat.repr c.muzzy_decay_ms
    ++ ",tcache_max:" ++ Nat.repr c.tchache_max
    ++ ",oversize_threshold:" ++ Nat.repr c.oversize_threshold
    ++ ",dss:" ++ c.dss
    ++ ",lg_extent_max_active_fit:" ++ Nat.repr c.lg_extent_max_active_fit

/-! ### Fitness aggregator: `MemoryStats` (src/agent.rs lines 197-227) -/

/-- `struct MemoryStats` from src/agent.rs. -/
structure MemoryStats where
  agent : Nat
  process_agent : Nat
  security_agent : Nat
  trace_agent : Nat
deriving Repr, DecidableEq

/-- `MemoryStats::new` (src/agent.rs lines 205-222): `Some` only when all
four role values are strictly positive. -/
def MemoryStats.new (agent process_agent security_agent trace_agent : Nat) :
    Option MemoryStats :=
  if agent > 0 ∧ process_agent > 0 ∧ security_agent > 0 ∧ trace_agent > 0 then
    some ⟨agent, process_agent, security_agent, trace_agent⟩
  else
    none

/-- `MemoryStats::total` (src/agent.rs lines 224-226). -/
def MemoryStats.total (s : MemoryStats) : Nat :=
  s.agent + s.process_agent + s.security_agent + s.trace_agent

/-! ### Port allocation (src/agent.rs lines 78, 109-113)

`static PORT: AtomicU16 = AtomicU16::new(12500)` together with

    let port = PORT.fetch_add(1, Ordering::Relaxed);
    if port > 12700 { PORT.store(12500, Ordering::Relaxed); }

Single-threaded semantics: the emitted port is the current counter value,
and the next counter value is `12500` when the emitted port exceeded
`12700`, else the successor. -/

/-- Counter update performed by one allocation: `fetch_add(1)` followed by
the conditional `store(12500)` keyed on the fetched value. -/
def portNext (s : Nat) : Nat :=
  if s > 12700 then 12500 else s + 1

/-- Counter value before the `n`-th allocation (counter starts at 12500). -/
def portState : Nat → Nat
  | 0 => 12500
  | n + 1 => portNext (portState n)

/-- Port emitted by the `n`-th single-threaded allocation (`fetch_add`
returns the pre-increment value). -/
def portAt (n : Nat) : Nat :=
  portState n

/-! ### Memory probe: `get_memory` line scanning (src/agent.rs lines 247-284)

The probe compiles four regular expressions

    agent:          "agent run *(\d+)$"
    process-agent:  "process-agent .* (\d+)$"
    security-agent: "security-agent .* (\d+)$"
    trace-agent:    "trace-agent .* (\d+)$"

and, for every output line, overwrites the matching role's accumulator
with the captured integer.  The matchers below implement exactly these
patterns on `List Char`: a line matches `P .* (\d+)$` iff it ends in a
non-empty digit run immediately preceded by a space, with the literal
`P ` occurring somewhere before that space; it matches `agent run *(\d+)$`
iff it ends in a non-empty digit run preceded (after skipping spaces) by
the literal `agent run`. -/

/-- Does `needle` occur at the head of `hay`? -/
def startsSeg : List Char → List Char → Bool
  | [], _ => true
  | _ :: _, [] => false
  | a :: as, b :: bs => a == b && startsSeg as bs

/-- Does `needle` occur anywhere inside `hay`? -/
def hasSeg (needle : List Char) : List Char → Bool
  | [] => startsSeg needle []
  | c :: t => startsSeg needle (c :: t) || hasSeg needle t

/-- Does `hay` end with `needle`? -/
def endsSeg (hay needle : List Char) : Bool :=
  startsSeg needle.reverse hay.reverse

/-- Split a line into (part before the trailing digit run, trailing digit
run).  The trailing digit run is the maximal digit suffix, which is what
the greedy `(\d+)$` capture of each probe pattern returns. -/
def splitTrailingDigits (cs : List Char) : List Char × List Char :=
  ((cs.reverse.dropWhile Char.isDigit).reverse, (cs.reverse.takeWhile Char.isDigit).reverse)

/-- `str::parse::<usize>` on a non-empty all-digit capture. -/
def parseDigits (ds : List Char) : Nat :=
  ds.foldl (fun a c => a * 10 + (c.toNat - 48)) 0

/-- Matcher for `agent run *(\d+)$` (`agent_regex`, src/agent.rs line 247):
returns the captured integer when the line matches. -/
def matchAgentRun (s : String) : Option Nat :=
  let p := splitTrailingDigits s.data
  if p.2.isEmpty then none
  else if endsSeg ((p.1.reverse.dropWhile (fun c => c == ' ')).reverse) "agent run".data then
    some (parseDigits p.2)
  else none

/-- Matcher for `<role> .* (\d+)$` (the `process-agent`, `security-agent`
and `trace-agent` regexes, src/agent.rs lines 248-250).  `lit` is the
literal part including its trailing space, e.g. `"process-agent "`. -/
def matchRole (lit : String) (s : String) : Option Nat :=
  let p := splitTrailingDigits s.data
  if p.2.isEmpty then none
  else if p.1.getLastD 'x' == ' ' && hasSeg lit.data p.1.dropLast then
    some (parseDigits p.2)
  else none

/-- Per-role accumulators of `get_memory` (the four `let mut` locals,
src/agent.rs lines 252-255). -/
structure RoleVals where
  agent : Nat
  process_agent : Nat
  security_agent : Nat
  trace_agent : Nat
deriving Repr, DecidableEq

/-- One iteration of the scanning loop of `get_memory` (src/agent.rs lines
265-281).  The source runs the four `if let Some` blocks in sequence; they
update pairwise distinct accumulators, so the combined effect is the
field-wise overwrite below. -/
def scanLine (m : RoleVals) (l : String) : RoleVals :=
  { agent := (matchAgentRun l).getD m.agent
    process_agent := (matchRole "process-agent " l).getD m.process_agent
    security_agent := (matchRole "security-agent " l).getD m.security_agent
    trace_agent := (matchRole "trace-agent " l).getD m.trace_agent }

/-- The whole scanning loop of `get_memory`, over the flattened list of
output lines, starting from the all-zero accumulators. -/
def scanLines (ls : List String) : RoleVals :=
  ls.foldl scanLine ⟨0, 0, 0, 0⟩

/-- Tail of `get_memory` (src/agent.rs line 284): the accumulators are
reduced through `MemoryStats::new`. -/
def getMemoryFromLines (ls : List String) : Option MemoryStats :=
  let m := scanLines ls
  MemoryStats.new m.agent m.process_agent m.security_agent m.trace_agent

/-! ### Isolation manager: `run_container_with_conf_string`
(src/agent.rs lines 89-195) -/

/-- The two base environment entries (src/agent.rs line 115). -/
def baseEnv : List String :=
  ["DD_SITE=datad0g.com", "DD_API_KEY=00001"]

/-- The `LD_PRELOAD` entry pushed for a non-empty tuning string
(src/agent.rs line 118). -/
def preloadVar : String :=
  "LD_PRELOAD=/opt/lib/nosys.so:/opt/datadog-agent/embedded/lib/libjemalloc.so"

/-- Environment construction (src/agent.rs lines 101-120): the incoming
tuning string is first mapped to `""` or `"MALLOC_CONF=<conf>"`, and the
preload/tuning entries are pushed only when that result is non-empty. -/
def buildEnv (conf : String) : List String :=
  let conf2 := if conf == "" then "" else "MALLOC_CONF=" ++ conf
  if conf2 == "" then baseEnv else baseEnv ++ [preloadVar, conf2]

/-- Volume binds (src/agent.rs lines 122-129): the docker socket read-only,
plus the optional configuration overlay joined onto the current working
directory. -/
def buildVolumes (cwd : String) (config : Option String) : List String :=
  "/var/run/docker.sock:/var/run/docker.sock:ro" ::
    (match config with
      | some c => [cwd ++ "/" ++ c ++ ":/etc/datadog-agent/datadog.yaml"]
      | none => [])

/-- The creation parameters passed to `create_container`
(src/agent.rs lines 131-170). -/
structure CreateConfig where
  name : String
  hostname : String
  image : String
  exposedPort : String
  networkMode : String
  binds : List String
  portKey : String
  hostIp : String
  hostPort : String
  nanoCpus : Nat
  autoRemove : Bool
  env : List String
  networkDisabled : Bool
deriving Repr, DecidableEq

/-- The `Config`/`HostConfig` value built by `run_container_with_conf_string`
for a given tuning string, instance name, allocated port and optional
overlay path. -/
def buildCreateConfig (name conf : String) (port : Nat) (cwd : String)
    (config : Option String) : CreateConfig :=
  { name := name
    hostname := "zogglebork"
    image := "datadog/agent-dev:nightly-main-8ea4e935-py3"
    exposedPort := "8125/udp"
    networkMode := "zorknet"
    binds := buildVolumes cwd config
    portKey := "8125/udp"
    hostIp := "127.0.0.1"
    hostPort := Nat.repr port
    nanoCpus := 2000000000
    autoRemove := true
    env := buildEnv conf
    networkDisabled := false }

/-- The daemon calls `run_container_with_conf_string` performs, in source
order.  `probe` stands for the exec create/start/attach of `get_memory`;
`stop` is the final `stop_container`. -/
inductive DaemonAction where
  | connect
  | create
  | start
  | probe
  | stop
deriving Repr, DecidableEq

/-- Oracle describing one evaluation's environment: which daemon calls
succeed (each is `unwrap`ped in the source, so a failure aborts the whole
process), and the diagnostic lines the probe returns when it succeeds. -/
structure DaemonRun where
  connectOk : Bool
  createOk : Bool
  startOk : Bool
  execOk : Bool
  stopOk : Bool
  probeLines : List String
deriving Repr, DecidableEq

/-- Control flow of `run_container_with_conf_string` (src/agent.rs lines
106-195) over a `DaemonRun` oracle: the list of daemon calls attempted, and
`some result` when the function returns normally (`none` = a fatal
`unwrap` panic).  The measurement window (load or sleep) performs no daemon
call and is not part of the trace. -/
def runEval (d : DaemonRun) : List DaemonAction × Option (Option MemoryStats) :=
  if !d.connectOk then ([DaemonAction.connect], none)
  else if !d.createOk then ([DaemonAction.connect, DaemonAction.create], none)
  else if !d.startOk then
    ([DaemonAction.connect, DaemonAction.create, DaemonAction.start], none)
  else if !d.execOk then
    ([DaemonAction.connect, DaemonAction.create, DaemonAction.start,
      DaemonAction.probe], none)
  else
    let memory := getMemoryFromLines d.probeLines
    if !d.stopOk then
      ([DaemonAction.connect, DaemonAction.create, DaemonAction.start,
        DaemonAction.probe, DaemonAction.stop], none)
    else
      ([DaemonAction.connect, DaemonAction.create, DaemonAction.start,
        DaemonAction.probe, DaemonAction.stop], some memory)

/-! ### Load generator: `spam` (src/dogstatsd.rs lines 6-31) -/

/-- One wire emission of the load generator. -/
inductive MetricEvent where
  | incr : String → List String → MetricEvent
  | decr : String → List String → MetricEvent
  | gauge : String → String → List String → MetricEvent
deriving Repr, DecidableEq

/-- `let tags = &["nong:wong"]` (src/dogstatsd.rs line 14). -/
def spamTags : List String :=
  ["nong:wong"]

/-- `format!("ziggle.counter{i}")`. -/
def counterName (i : Nat) : String :=
  "ziggle.counter" ++ Nat.repr i

/-- `format!("ziggle.guage{i}")` (sic, as in the source). -/
def gaugeName (i : Nat) : String :=
  "ziggle.guage" ++ Nat.repr i

/-- Emissions of one `for i in 0..10000` iteration
(src/dogstatsd.rs lines 21-27). -/
def iterEvents (i : Nat) : List MetricEvent :=
  [MetricEvent.incr (counterName i) spamTags,
   MetricEvent.decr (counterName i) spamTags,
   MetricEvent.gauge (gaugeName i) "12345" spamTags]

/-- One full batch: the whole `for i in 0..10000` loop body. -/
def batchEvents : List MetricEvent :=
  ((List.range 10000).map iterEvents).flatten

/-- The `loop` of `spam`, fuelled.  `elapsed k` is the wall-clock reading
`start.elapsed()` observed at the `k`-th top-of-loop check; the loop
returns at the first check whose reading exceeds `timelimit`, after having
emitted one full batch per preceding check.  `none` means the fuel ran out
before the time limit was observed exceeded. -/
def spamLoop (elapsed : Nat → Nat) (timelimit : Nat) :
    Nat → Nat → Option (List MetricEvent)
  | 0, _ => none
  | fuel + 1, k =>
    if elapsed k > timelimit then some []
    else (spamLoop elapsed timelimit fuel (k + 1)).map (fun rest => batchEvents ++ rest)

/-- `spam` (src/dogstatsd.rs lines 6-31): the full emission trace. -/
def spam (elapsed : Nat → Nat) (timelimit fuel : Nat) : Option (List MetricEvent) :=
  spamLoop elapsed timelimit fuel 0

/-! ### `get_name` (src/agent.rs lines 67-76) -/

/-- The 62-character table rand's `Alphanumeric` distribution samples from
uniformly (a sample is one of these characters; modelled from the rand
crate's `Alphanumeric` implementation, which draws an index in `0..62`). -/
def ALPHANUMERIC_CHARS : List Char :=
  "ABCDEFGHIJKLMNOPQRSTUVWXYZabcdefghijklmnopqrstuvwxyz0123456789".data

/-- One `rng.sample(Alphanumeric)` given the raw random number `r`. -/
def sampleAlphanumeric (r : Nat) : Char :=
  ALPHANUMERIC_CHARS.getD (r % 62) 'A'

/-- `get_name` (src/agent.rs lines 68-76): `format!("groovin-{}", ...)`
over 10 samples of `Alphanumeric`; `rng k` is the `k`-th raw random draw. -/
def get_name (rng : Nat → Nat) : String :=
  "groovin-" ++ ((List.range 10).map (fun i => sampleAlphanumeric (rng i))).asString

/-! ### Theorems -/

/-- C1: the fitness aggregator returns a present score equal to the exact
sum of the 4 role values iff all 4 are strictly positive; with any role 0
(the only non-positive `usize` value) the result is absent — never a
partial sum — and the absent result carries no further distinction. -/
theorem memoryStats_new_sum_iff_all_positive :
    ∀ a p s t : Nat,
      ((MemoryStats.new a p s t).map MemoryStats.total = some (a + p + s + t) ↔
        0 < a ∧ 0 < p ∧ 0 < s ∧ 0 < t)
      ∧ (a = 0 ∨ p = 0 ∨ s = 0 ∨ t = 0 → MemoryStats.new a p s t = none) := by
  intro a p s t
  unfold MemoryStats.new
  split
  next h =>
    constructor
    · constructor
      · intro _
        exact h
      · intro _
        simp [MemoryStats.total]
    · intro h0
      omega
  next h =>
    constructor
    · constructor
      · intro hx
        simp at hx
      · intro hx
        exact absurd hx h
    · intro _
      rfl

/-- Witness for C1 at the concrete reading (1, 2, 3, 4). -/
theorem memoryStats_new_sum_iff_all_positive_witness :
    (MemoryStats.new 1 2 3 4).map MemoryStats.total = some 10 :=
  (memoryStats_new_sum_iff_all_positive 1 2 3 4).1.mpr (by decide)

/-- C2: for every 7-element vector with entries in [0,20), the derived
allocator configuration follows the fixed derivation rules of
`impl From<&[usize]> for MallocConf`. -/
theorem mallocConf_fromVec_rules :
    ∀ v : List Nat, v.length = 7 → (∀ x ∈ v, x < 20) →
      (MallocConf.fromVec v).tchache_max = v.getD 0 0 * 6500
      ∧ (MallocConf.fromVec v).oversize_threshold = v.getD 1 0 * 6500
      ∧ (MallocConf.fromVec v).narenas = v.getD 2 0
      ∧ (v.getD 3 0 < 3 → (MallocConf.fromVec v).dss = "disabled")
      ∧ (3 ≤ v.getD 3 0 → v.getD 3 0 < 7 → (MallocConf.fromVec v).dss = "primary")
      ∧ (7 ≤ v.getD 3 0 → (MallocConf.fromVec v).dss = "secondary")
      ∧ ((MallocConf.fromVec v).background_thread = true ↔ v.getD 4 0 > 5)
      ∧ (MallocConf.fromVec v).muzzy_decay_ms = v.getD 5 0 * 100
      ∧ (MallocConf.fromVec v).lg_extent_max_active_fit = v.getD 6 0 := by
  intro v _ _
  refine ⟨rfl, rfl, rfl, ?_, ?_, ?_, ?_, rfl, rfl⟩
  · intro h
    simp only [MallocConf.fromVec, dssOf]
    rw [if_pos h]
  · intro h3 h7
    simp only [MallocConf.fromVec, dssOf]
    rw [if_neg (by omega), if_pos h7]
  · intro h7
    simp only [MallocConf.fromVec, dssOf]
    rw [if_neg (by omega), if_neg (by omega)]
  · simp only [MallocConf.fromVec]
    exact decide_eq_true_iff

/-- Witness for C2 at the concrete vector [1,2,3,4,6,7,8]. -/
theorem mallocConf_fromVec_rules_witness :
    (MallocConf.fromVec [1, 2, 3, 4, 6, 7, 8]).dss = "primary" :=
  (mallocConf_fromVec_rules [1, 2, 3, 4, 6, 7, 8] (by decide)
    (by decide)).2.2.2.2.1 (by decide) (by decide)

/-- The single-threaded port counter visits `12500 + n % 202`. -/
lemma portState_eq (n : Nat) : portState n = 12500 + n % 202 := by
  induction n with
  | zero => rfl
  | succ n ih =>
    show portNext (portState n) = _
    rw [ih]
    unfold portNext
    split <;> omega

set_option maxRecDepth 4000 in
/-- C3 counterexample: the 201st allocation (index 200) emits port 12700,
which lies outside the claimed range [12500, 12700). -/
theorem port_alloc_counterexample : ¬ portAt 200 < 12700 := by decide

/-- C3 (amended): sequential single-threaded allocations emit
`12500 + n % 202`: strictly increasing ports within each 202-allocation
wrap cycle (hence no duplicates within a cycle), all drawn from
[12500, 12702) — the cycle runs up to 12701, one past the upper bound
12700, before wrapping back to 12500. -/
theorem port_alloc_cycle :
    (∀ n : Nat, portAt n = 12500 + n % 202 ∧ 12500 ≤ portAt n ∧ portAt n < 12702)
    ∧ (∀ c i j : Nat, i < j → j < 202 →
        portAt (202 * c + i) < portAt (202 * c + j))
    ∧ (∀ c : Nat, portAt (202 * c + 201) = 12701 ∧ portAt (202 * c + 202) = 12500) := by
  refine ⟨fun n => ?_, fun c i j hij hj => ?_, fun c => ?_⟩
  · have h : portAt n = 12500 + n % 202 := portState_eq n
    exact ⟨h, by omega, by omega⟩
  · have hi := portState_eq (202 * c + i)
    have hj2 := portState_eq (202 * c + j)
    show portState _ < portState _
    rw [hi, hj2]
    omega
  · constructor <;> (show portState _ = _) <;> rw [portState_eq] <;> omega

/-- Witness for C3's amended theorem: the first two allocations of a cycle
are strictly increasing. -/
theorem port_alloc_cycle_witness : portAt (202 * 0 + 0) < portAt (202 * 0 + 1) :=
  port_alloc_cycle.2.1 0 0 1 (by decide) (by decide)

/-- Every character of a decimal numeral is a digit. -/
lemma toDigitsCore_isDigit :
    ∀ (fuel n : Nat) (ds : List Char), (∀ c ∈ ds, c.isDigit = true) →
      ∀ c ∈ Nat.toDigitsCore 10 fuel n ds, c.isDigit = true := by
  intro fuel
  induction fuel with
  | zero =>
    intro n ds h
    simpa [Nat.toDigitsCore] using h
  | succ f ih =>
    intro n ds h c hc
    rw [Nat.toDigitsCore] at hc
    have hcons : ∀ c' ∈ Nat.digitChar (n % 10) :: ds, c'.isDigit = true := by
      intro c' hc'
      rcases List.mem_cons.mp hc' with h1 | h1
      · subst h1
        have h10 : n % 10 < 10 := Nat.mod_lt n (by decide)
        have : ∀ k, k < 10 → (Nat.digitChar k).isDigit = true := by decide
        exact this _ h10
      · exact h c' h1
    split at hc
    · exact hcons c hc
    · exact ih _ _ hcons c hc

/-- A `usize` rendered by `format!("{}")` contains no comma. -/
lemma count_comma_repr (n : Nat) : List.count ',' (Nat.repr n).data = 0 := by
  rw [List.count_eq_zero]
  intro hmem
  have : (',' : Char).isDigit = true :=
    toDigitsCore_isDigit (n + 1) n [] (by simp) ',' hmem
  exact absurd this (by decide)

/-- A `usize` rendered by `format!("{}")` contains no colon. -/
lemma count_colon_repr (n : Nat) : List.count ':' (Nat.repr n).data = 0 := by
  rw [List.count_eq_zero]
  intro hmem
  have : (':' : Char).isDigit = true :=
    toDigitsCore_isDigit (n + 1) n [] (by simp) ':' hmem
  exact absurd this (by decide)

/-- Comma/colon counts of the serialized configuration, for the three
retention-mode strings the codec can produce. -/
lemma toStr_counts (c : MallocConf)
    (hd : c.dss = "disabled" ∨ c.dss = "primary" ∨ c.dss = "secondary") :
    List.count ',' c.toStr.data = 8 ∧ List.count ':' c.toStr.data = 9 := by
  obtain ⟨na, tm, ov, dss, bt, mu, lg⟩ := c
  simp only at hd
  unfold MallocConf.toStr
  simp only [String.data_append, List.count_append]
  rcases hd with h | h | h <;> subst h <;> cases bt
  all_goals simp only [count_comma_repr, count_colon_repr]
  all_goals constructor
  all_goals rfl

/-- C4 counterexample: for the all-zero vector the emitted tuning string
has 9 comma-delimited fields, not 7. -/
theorem mallocConf_encode_fields_counterexample :
    ((MallocConf.fromVec [0, 0, 0, 0, 0, 0, 0]).toStr.data.splitOn ',').length ≠ 7 := by
  decide

/-- C4 (amended): encoding is a pure function of the vector, and the
tuning string consists of exactly 9 comma-delimited `key:value` fields in
a fixed order — the 7 derived fields plus the two pinned fields
`tcache:false` and `dirty_decay_ms:0`; the all-zero vector yields exactly
the expected literal string. -/
theorem mallocConf_encode_nine_fields :
    (∀ v : List Nat,
      List.count ',' (MallocConf.fromVec v).toStr.data = 8
      ∧ List.count ':' (MallocConf.fromVec v).toStr.data = 9)
    ∧ (MallocConf.fromVec [0, 0, 0, 0, 0, 0, 0]).toStr =
        "background_thread:false,narenas:0,tcache:false,dirty_decay_ms:0,muzzy_decay_ms:0,tcache_max:0,oversize_threshold:0,dss:disabled,lg_extent_max_active_fit:0" := by
  constructor
  · intro v
    apply toStr_counts
    simp only [MallocConf.fromVec, dssOf]
    split
    · exact Or.inl rfl
    · split
      · exact Or.inr (Or.inl rfl)
      · exact Or.inr (Or.inr rfl)
  · decide

/-- C10: every serialized configuration pins `tcache:false` and
`dirty_decay_ms:0` as comma-delimited fields, whatever the input vector. -/
theorem toStr_pins_tcache_and_dirty_decay :
    ∀ c : MallocConf,
      (∃ p q : String, c.toStr = p ++ ("," ++ ("tcache:false" ++ ("," ++ q))))
      ∧ (∃ p q : String, c.toStr = p ++ ("," ++ ("dirty_decay_ms:0" ++ ("," ++ q)))) := by
  intro c
  constructor
  · refine ⟨"background_thread:" ++ (if c.background_thread then "true" else "false")
      ++ ",narenas:" ++ Nat.repr c.narenas,
      "dirty_decay_ms:0,muzzy_decay_ms:" ++ Nat.repr c.muzzy_decay_ms
      ++ ",tcache_max:" ++ Nat.repr c.tchache_max
      ++ ",oversize_threshold:" ++ Nat.repr c.oversize_threshold
      ++ ",dss:" ++ c.dss
      ++ ",lg_extent_max_active_fit:" ++ Nat.repr c.lg_extent_max_active_fit, ?_⟩
    apply String.ext
    unfold MallocConf.toStr
    simp only [String.data_append, List.append_assoc, List.cons_append, List.nil_append]
  · refine ⟨"background_thread:" ++ (if c.background_thread then "true" else "false")
      ++ ",narenas:" ++ Nat.repr c.narenas ++ ",tcache:false",
      "muzzy_decay_ms:" ++ Nat.repr c.muzzy_decay_ms
      ++ ",tcache_max:" ++ Nat.repr c.tchache_max
      ++ ",oversize_threshold:" ++ Nat.repr c.oversize_threshold
      ++ ",dss:" ++ c.dss
      ++ ",lg_extent_max_active_fit:" ++ Nat.repr c.lg_extent_max_active_fit, ?_⟩
    apply String.ext
    unfold MallocConf.toStr
    simp only [String.data_append, List.append_assoc, List.cons_append, List.nil_append]

/-- C5: whenever connect, create, start and the probe's exec all succeed,
the evaluation attempts `stop_container` exactly once, after the memory
probe and before the result is returned — whatever memory value the probe
produced — while any earlier fatal daemon failure aborts before `stop` is
ever attempted. -/
theorem runEval_teardown :
    ∀ d : DaemonRun,
      (d.connectOk = true → d.createOk = true → d.startOk = true → d.execOk = true →
        (runEval d).1 = [DaemonAction.connect, DaemonAction.create, DaemonAction.start,
          DaemonAction.probe, DaemonAction.stop]
        ∧ List.count DaemonAction.stop (runEval d).1 = 1
        ∧ (d.stopOk = true → (runEval d).2 = some (getMemoryFromLines d.probeLines)))
      ∧ (¬(d.connectOk = true ∧ d.createOk = true ∧ d.startOk = true ∧ d.execOk = true) →
          DaemonAction.stop ∉ (runEval d).1) := by
  intro d
  obtain ⟨co, cr, st, ex, sp, ls⟩ := d
  constructor
  · intro h1 h2 h3 h4
    subst h1; subst h2; subst h3; subst h4
    cases sp
    · exact ⟨rfl, rfl, fun h => by cases h⟩
    · exact ⟨rfl, rfl, fun _ => rfl⟩
  · intro h
    cases co <;> cases cr <;> cases st <;> cases ex <;> simp [runEval] at h ⊢

/-- Witness for C5: with every daemon call succeeding, the attempted-call
trace ends with a single `stop` after the probe. -/
theorem runEval_teardown_witness :
    (runEval ⟨true, true, true, true, true, []⟩).1 =
      [DaemonAction.connect, DaemonAction.create, DaemonAction.start,
        DaemonAction.probe, DaemonAction.stop] :=
  ((runEval_teardown ⟨true, true, true, true, true, []⟩).1 rfl rfl rfl rfl).1

/-- C6: with an empty tuning string the instance environment is exactly the
two base telemetry/credential variables; with a non-empty tuning string it
is that baseline plus exactly the preload variable and the tuning string
under `MALLOC_CONF`, and every other creation parameter is identical in
the two cases. -/
theorem env_injection :
    ∀ (name cwd : String) (port : Nat) (cfg : Option String),
      (buildCreateConfig name "" port cwd cfg).env = ["DD_SITE=datad0g.com", "DD_API_KEY=00001"]
      ∧ ∀ s : String, s ≠ "" →
          (buildCreateConfig name s port cwd cfg).env =
            ["DD_SITE=datad0g.com", "DD_API_KEY=00001"]
              ++ [preloadVar, "MALLOC_CONF=" ++ s]
          ∧ (buildCreateConfig name s port cwd cfg).name
              = (buildCreateConfig name "" port cwd cfg).name
          ∧ (buildCreateConfig name s port cwd cfg).hostname
              = (buildCreateConfig name "" port cwd cfg).hostname
          ∧ (buildCreateConfig name s port cwd cfg).image
              = (buildCreateConfig name "" port cwd cfg).image
          ∧ (buildCreateConfig name s port cwd cfg).exposedPort
              = (buildCreateConfig name "" port cwd cfg).exposedPort
          ∧ (buildCreateConfig name s port cwd cfg).networkMode
              = (buildCreateConfig name "" port cwd cfg).networkMode
          ∧ (buildCreateConfig name s port cwd cfg).binds
              = (buildCreateConfig name "" port cwd cfg).binds
          ∧ (buildCreateConfig name s port cwd cfg).portKey
              = (buildCreateConfig name "" port cwd cfg).portKey
          ∧ (buildCreateConfig name s port cwd cfg).hostIp
              = (buildCreateConfig name "" port cwd cfg).hostIp
          ∧ (buildCreateConfig name s port cwd cfg).hostPort
              = (buildCreateConfig name "" port cwd cfg).hostPort
          ∧ (buildCreateConfig name s port cwd cfg).nanoCpus
              = (buildCreateConfig name "" port cwd cfg).nanoCpus
          ∧ (buildCreateConfig name s port cwd cfg).autoRemove
              = (buildCreateConfig name "" port cwd cfg).autoRemove
          ∧ (buildCreateConfig name s port cwd cfg).networkDisabled
              = (buildCreateConfig name "" port cwd cfg).networkDisabled := by
  intro name cwd port cfg
  refine ⟨rfl, ?_⟩
  intro s hs
  have h2 : ("MALLOC_CONF=" ++ s) ≠ "" := by
    intro he
    have hl := congrArg String.length he
    rw [String.length_append] at hl
    rw [show ("MALLOC_CONF=" : String).length = 12 from rfl] at hl
    rw [show ("" : String).length = 0 from rfl] at hl
    omega
  refine ⟨?_, rfl, rfl, rfl, rfl, rfl, rfl, rfl, rfl, rfl, rfl, rfl, rfl⟩
  show buildEnv s = _
  unfold buildEnv
  simp only [beq_iff_eq]
  rw [if_neg hs, if_neg h2]
  rfl

/-- Witness for C6 at the concrete tuning string "x". -/
theorem env_injection_witness :
    (buildCreateConfig "n" "x" 0 "" none).env =
      ["DD_SITE=datad0g.com", "DD_API_KEY=00001"] ++ [preloadVar, "MALLOC_CONF=" ++ "x"] :=
  ((env_injection "n" "" 0 none).2 "x" (by decide)).1

/-- The scanning fold tracks, per role, the last matching line's value. -/
lemma scanLines_field (f : String → Option Nat) (proj : RoleVals → Nat)
    (hstep : ∀ m l, proj (scanLine m l) = (f l).getD (proj m)) :
    ∀ (ls : List String) (m : RoleVals),
      proj (ls.foldl scanLine m) = (ls.filterMap f).getLastD (proj m) := by
  intro ls
  induction ls with
  | nil => intro m; rfl
  | cons l t ih =>
    intro m
    rw [List.foldl_cons, List.filterMap_cons, ih, hstep]
    cases hf : f l with
    | none => rfl
    | some v =>
      rw [List.getLastD_cons]
      rfl

/-- C7: each worker-role value produced by the probe's scanning loop is the
integer captured from the last line matching that role's end-anchored
pattern (last match wins), with non-matching lines skipped — they leave
every role value (initially 0) unchanged. -/
theorem probe_last_match_wins :
    ∀ lines : List String,
      (scanLines lines).agent = (lines.filterMap matchAgentRun).getLastD 0
      ∧ (scanLines lines).process_agent
          = (lines.filterMap (matchRole "process-agent ")).getLastD 0
      ∧ (scanLines lines).security_agent
          = (lines.filterMap (matchRole "security-agent ")).getLastD 0
      ∧ (scanLines lines).trace_agent
          = (lines.filterMap (matchRole "trace-agent ")).getLastD 0 := by
  intro lines
  exact ⟨scanLines_field matchAgentRun RoleVals.agent (fun _ _ => rfl) lines ⟨0, 0, 0, 0⟩,
    scanLines_field (matchRole "process-agent ") RoleVals.process_agent
      (fun _ _ => rfl) lines ⟨0, 0, 0, 0⟩,
    scanLines_field (matchRole "security-agent ") RoleVals.security_agent
      (fun _ _ => rfl) lines ⟨0, 0, 0, 0⟩,
    scanLines_field (matchRole "trace-agent ") RoleVals.trace_agent
      (fun _ _ => rfl) lines ⟨0, 0, 0, 0⟩⟩

/-- The fuelled loop of `spam` emits exactly one full batch per elapsed-time
check that does not yet exceed the limit. -/
lemma spamLoop_eq (elapsed : Nat → Nat) (timelimit : Nat) :
    ∀ (k k0 fuel : Nat), elapsed (k0 + k) > timelimit →
      (∀ j, j < k → elapsed (k0 + j) ≤ timelimit) → k < fuel →
      spamLoop elapsed timelimit fuel k0 =
        some (List.flatten (List.replicate k batchEvents)) := by
  intro k
  induction k with
  | zero =>
    intro k0 fuel hk _ hfuel
    match fuel, hfuel with
    | fuel + 1, _ =>
      rw [spamLoop]
      rw [if_pos (by simpa using hk)]
      rfl
  | succ k ih =>
    intro k0 fuel hk hmin hfuel
    match fuel, hfuel with
    | fuel + 1, hfuel =>
      rw [spamLoop]
      have h0 : ¬ elapsed k0 > timelimit := by
        have := hmin 0 (Nat.succ_pos k)
        simpa using this
      rw [if_neg h0]
      have hk' : elapsed (k0 + 1 + k) > timelimit := by
        have he : k0 + 1 + k = k0 + (k + 1) := by omega
        rw [he]
        exact hk
      have hmin' : ∀ j, j < k → elapsed (k0 + 1 + j) ≤ timelimit := by
        intro j hj
        have he : k0 + 1 + j = k0 + (j + 1) := by omega
        rw [he]
        exact hmin (j + 1) (by omega)
      rw [ih (k0 + 1) fuel hk' hmin' (by omega)]
      rfl

/-- C8: for every elapsed-time behaviour whose first limit-exceeding check
is the `k`-th one, the load generator emits exactly `k` complete batches —
the time limit is only consulted between batches, so an in-flight batch
always completes — and returns at that check; each batch iteration sends an
increment and a matching decrement of the same counter name plus a gauge
set to the fixed value, all tagged with the single static tag. -/
theorem spam_full_batches :
    ∀ (elapsed : Nat → Nat) (timelimit k fuel : Nat),
      elapsed k > timelimit → (∀ j, j < k → elapsed j ≤ timelimit) → k < fuel →
      spam elapsed timelimit fuel = some (List.flatten (List.replicate k batchEvents))
      ∧ ∀ i : Nat, ∃ nm g : String,
          iterEvents i = [MetricEvent.incr nm spamTags, MetricEvent.decr nm spamTags,
            MetricEvent.gauge g "12345" spamTags] := by
  intro elapsed timelimit k fuel hk hmin hfuel
  refine ⟨?_, fun i => ⟨counterName i, gaugeName i, rfl⟩⟩
  have h := spamLoop_eq elapsed timelimit k 0 fuel (by simpa using hk)
    (fun j hj => by simpa using hmin j hj) hfuel
  simpa [spam] using h

/-- Witness for C8: with a clock that already exceeds a zero time limit at
the first check, the generator emits zero batches and returns. -/
theorem spam_full_batches_witness :
    spam (fun _ => 1) 0 1 = some (List.flatten (List.replicate 0 batchEvents))
    ∧ ∀ i : Nat, ∃ nm g : String,
        iterEvents i = [MetricEvent.incr nm spamTags, MetricEvent.decr nm spamTags,
          MetricEvent.gauge g "12345" spamTags] :=
  spam_full_batches (fun _ => 1) 0 0 1 (by decide)
    (fun j hj => absurd hj (Nat.not_lt_zero j)) (by decide)

/-- C9 counterexample: the generated name for the all-zero random stream is
"groovin-AAAAAAAAAA", which is not a string of 10 alphanumeric characters
(it has length 18 and contains a hyphen). -/
theorem get_name_counterexample :
    ¬ ((get_name (fun _ => 0)).length = 10
      ∧ (get_name (fun _ => 0)).data.all Char.isAlphanum = true) := by
  decide

/-- C9 (amended): every generated instance identity is the fixed prefix
"groovin-" followed by 10 randomly sampled alphanumeric characters
(collisions are not checked — the name depends only on the random draws). -/
theorem get_name_shape :
    ∀ rng : Nat → Nat, ∃ suffix : String,
      get_name rng = "groovin-" ++ suffix
      ∧ suffix.length = 10
      ∧ suffix.data.all Char.isAlphanum = true := by
  intro rng
  refine ⟨((List.range 10).map (fun i => sampleAlphanumeric (rng i))).asString, rfl, ?_, ?_⟩
  · show ((List.range 10).map (fun i => sampleAlphanumeric (rng i))).length = 10
    rw [List.length_map, List.length_range]
  · rw [List.all_eq_true]
    intro c hc
    have hc' : c ∈ (List.range 10).map (fun i => sampleAlphanumeric (rng i)) := hc
    rw [List.mem_map] at hc'
    obtain ⟨i, _, hci⟩ := hc'
    have h62 : rng i % 62 < 62 := Nat.mod_lt _ (by decide)
    have hall : ∀ m, m < 62 → (ALPHANUMERIC_CHARS.getD m 'A').isAlphanum = true := by decide
    exact hci ▸ hall _ h62

end Jemopt
